import Mathlib

/-!
Verification development for the macOS realtime-captions streaming
transcription pipeline.

The embedding below is a shallow model of the repository's core:

* `src/src/transcriber.py` — class `Transcriber`: the commit state machine
  (`_run_loop` one iteration is `tick`, `_process_audio_buffer` is
  `processAudioBuffer`, `_commit_text` is `commitText`, `pause`/`resume`
  are `pause`/`resume`).
* `src/transcriber.py` — the legacy single-function loop
  `run_transcription_loop`; only its commit step differs materially from
  the class version, embedded as `legacyCommit`.
* `src/src/ui.py` — `perform_translation`, embedded as `performTranslation`.

Modelling choices:

* Audio samples are rationals (ℚ) standing for the float32 samples; the
  RMS test `sqrt(mean(buf**2)) < θ` is embedded sqrt-free as
  `sum of squares < θ² · length` which is equivalent over the reals for a
  non-empty buffer and positive θ (and both sides are `False` on an empty
  buffer, since NumPy's mean of an empty array is NaN and `NaN < θ` is
  false).
* Python strings are Lean `String`s; `str.strip`, `str.lower`,
  `str.endswith` and negative slicing `s[-n:]` are given executable
  models over the character list (`trimStr`, `lowerStr`, `endsWithStr`,
  `strTakeRight`).
* The two whisper model invocations are black-box collaborators
  `fast, quality : List ℚ → String → Except String String` taking the
  flattened buffer and the initial prompt; a raised exception is the
  `Except.error` case.
* Side effects (the `update_callback`, `status_callback`, console error
  print, transcript log file) are recorded as an `Event` trace.
-/

/-- Samples per second of audio, `SAMPLE_RATE` in `src/src/config.py`. -/
def SAMPLE_RATE : ℕ := 16000

/-- Whole-buffer and trailing-window RMS threshold, `self.silence_threshold`. -/
def SILENCE_THRESHOLD : ℚ := 1 / 100

/-- Minimum buffer duration before transcription is attempted, `self.min_duration`. -/
def MIN_DURATION : ℚ := 1

/-- Hard cap on buffer duration that forces a commit, `self.max_duration`. -/
def MAX_DURATION : ℚ := 15

/-- Minimum time between transcription attempts, `self.update_interval`. -/
def UPDATE_INTERVAL : ℚ := 1 / 2

/-- Characters treated as whitespace by the model of Python `str.strip`. -/
def isSpaceChar (c : Char) : Bool := c == ' ' || c == '\t' || c == '\n' || c == '\r'

/-- Model of Python `str.strip()`: drop whitespace from both ends. -/
def trimStr (s : String) : String :=
  String.mk (((s.data.dropWhile isSpaceChar).reverse.dropWhile isSpaceChar).reverse)

/-- Model of Python `str.lower()`: lowercase every character. -/
def lowerStr (s : String) : String := String.mk (s.data.map Char.toLower)

/-- Model of Python `s.endswith(t)` for a single pattern. -/
def endsWithStr (s t : String) : Bool := t.data.isSuffixOf s.data

/-- Model of Python negative slicing `s[-n:]`: the last `n` characters
(the whole string when it is shorter than `n`). -/
def strTakeRight (s : String) (n : ℕ) : String :=
  String.mk (s.data.drop (s.data.length - n))

/-- Sum of squared samples of a buffer. -/
def sumSq (xs : List ℚ) : ℚ := (xs.map (fun x => x * x)).sum

/-- Model of `np.sqrt(np.mean(xs**2)) < θ`, stated sqrt-free:
`sum of squares < θ² · length`. Equivalent over ℝ for a non-empty `xs`
and `θ > 0`; on the empty buffer both the NumPy comparison (NaN) and
this one are false. -/
def rmsBelow (xs : List ℚ) (θ : ℚ) : Bool :=
  decide (sumSq xs < θ ^ 2 * xs.length)

/-- Duration in seconds of a sample buffer, `len(buf) / SAMPLE_RATE`. -/
def durationOf (buf : List ℚ) : ℚ := (buf.length : ℚ) / (SAMPLE_RATE : ℚ)

/-- Observable side effects of the transcription loop. -/
inductive Event where
  /-- Call of `self.update_callback(text, is_final)`. -/
  | update (text : String) (final : Bool) : Event
  /-- Call of `self.status_callback(msg)`. -/
  | status (msg : String) : Event
  /-- Append of committed text to the transcript log (`log_to_file`). -/
  | logCommit (text : String) : Event
  /-- Console print of a caught transcription error. -/
  | errorLog (msg : String) : Event
deriving Repr, DecidableEq

/-- State of the `Transcriber` instance (class in `src/src/transcriber.py`)
together with the shared audio queue it drains. -/
structure TState where
  /-- Frames sitting in `self.audio_queue`, in arrival order. -/
  queue : List (List ℚ)
  /-- `self.local_audio_buffer` (flattened to a sample list). -/
  buffer : List ℚ
  /-- `self.last_transcribe_time`. -/
  lastTranscribeTime : ℚ
  /-- `self.last_committed_text` (the TrailingContext). -/
  lastCommitted : String
  /-- `self.pause_event` (the pause request flag). -/
  pauseRequested : Bool
  /-- `self.transcription_paused` (the acknowledged/paused flag). -/
  paused : Bool
deriving Repr, DecidableEq

/-- Engine collaborator type: `(samples, initial_prompt) ↦ text`, with
`Except.error` standing for a raised exception. -/
abbrev Engine := List ℚ → String → Except String String

/-- Method `pause` of `Transcriber`: sets `self.pause_event`. -/
def pause (s : TState) : TState := { s with pauseRequested := true }

/-- Method `resume` of `Transcriber`: clears `self.pause_event`. -/
def resume (s : TState) : TState := { s with pauseRequested := false }

/-- Method `is_paused` of `Transcriber`: reads `self.transcription_paused`. -/
def isPausedFlag (s : TState) : Bool := s.paused

/-- Enqueue of one frame by `AudioRecorder._audio_callback`
(`self.audio_queue.put(indata.copy())`). -/
def enqueueFrame (s : TState) (frame : List ℚ) : TState :=
  { s with queue := s.queue ++ [frame] }

/-- Context prompt, line 121 of `src/src/transcriber.py`:
`self.last_committed_text[-200:] if self.last_committed_text else " "`. -/
def promptOf (lastCommitted : String) : String :=
  if lastCommitted ≠ "" then strTakeRight lastCommitted 200 else " "

/-- Sentence-terminal test, `text.endswith((".", "!", "?"))`. -/
def isSentenceEnd (text : String) : Bool :=
  endsWithStr text "." || endsWithStr text "!" || endsWithStr text "?"

/-- Trailing-silence window length, `int(0.5 * SAMPLE_RATE)` samples. -/
def lastChunkLen : ℕ := 8000

/-- Trailing-silence test of `_process_audio_buffer`: RMS of the last
0.5 s below the threshold when the buffer is longer than the window,
else assumed silent (the fallback branch at line 149). -/
def isSilenceEndOf (buf : List ℚ) : Bool :=
  if lastChunkLen < buf.length then
    rmsBelow (buf.drop (buf.length - lastChunkLen)) SILENCE_THRESHOLD
  else
    true

/-- Commit predicate, line 151:
`(is_sentence_end and is_silence_end) or (current_duration > self.max_duration)`. -/
def shouldCommit (text : String) (buf : List ℚ) (currentDuration : ℚ) : Bool :=
  (isSentenceEnd text && isSilenceEndOf buf) || decide (MAX_DURATION < currentDuration)

/-- TrailingContext update of `_commit_text`, lines 184–186: append the
committed text after a space, then truncate to the last 1000 characters
when longer than 1000. -/
def appendContext (lastCommitted finalText : String) : String :=
  let appended := lastCommitted ++ " " ++ finalText
  if 1000 < appended.length then strTakeRight appended 1000 else appended

/-- Method `_commit_text` of `Transcriber` (lines 158–188): re-transcribe
the buffer with the quality model on the same prompt, emit the trimmed
quality text as final (no fallback to the fast text), log it, update the
TrailingContext and reset the buffer. Returns the new
`(buffer, last_committed_text)` and the emitted events; an engine
exception propagates to the caller's handler. -/
def commitText (quality : Engine) (buf : List ℚ) (lastCommitted prompt : String) :
    Except String (List ℚ × String × List Event) :=
  (quality buf prompt).map fun raw =>
    let finalText := trimStr raw
    ([], appendContext lastCommitted finalText,
      [Event.logCommit finalText, Event.update finalText true])

/-- Anti-hallucination filter, lines 133–137: the fast result is
stripped, and replaced by the empty string when it equals the stripped
prompt case-insensitively (`text.lower() == prompt.strip().lower()`). -/
def echoFiltered (rawFast prompt : String) : String :=
  let text0 := trimStr rawFast
  if lowerStr text0 = lowerStr (trimStr prompt) then "" else text0

/-- Method `_process_audio_buffer` of `Transcriber` (lines 119–156):
transcribe with the fast model, apply the echo filter, then either
commit (via `_commit_text`), emit a preview, or do nothing on empty
text. Returns the new `(buffer, last_committed_text)` and the events. -/
def processAudioBuffer (fast quality : Engine) (buf : List ℚ)
    (lastCommitted : String) (currentDuration : ℚ) :
    Except String (List ℚ × String × List Event) :=
  let prompt := promptOf lastCommitted
  (fast buf prompt).bind fun rawFast =>
    let text := echoFiltered rawFast prompt
    if text ≠ "" then
      if shouldCommit text buf currentDuration then
        commitText quality buf lastCommitted prompt
      else
        Except.ok (buf, lastCommitted, [Event.update text false])
    else
      Except.ok (buf, lastCommitted, [])

/-- Drain step of `_run_loop` (lines 85–94): clear the acknowledged
pause flag, then append every queued frame to the local buffer in
arrival order, emptying the queue. -/
def drain (s : TState) : TState :=
  { s with paused := false, queue := [], buffer := s.buffer ++ s.queue.flatten }

/-- Body of one `_run_loop` iteration after the pause handshake and the
queue drain (lines 96–117): the duration/interval gate, the whole-buffer
silence skip, and the guarded call of `_process_audio_buffer` whose
exceptions are caught and printed; `self.last_transcribe_time` is set to
`now` only when `_process_audio_buffer` returned normally. -/
def tickCore (fast quality : Engine) (now : ℚ) (s2 : TState) : TState × List Event :=
  let dur := durationOf s2.buffer
  if MIN_DURATION ≤ dur ∧ UPDATE_INTERVAL < now - s2.lastTranscribeTime then
    if rmsBelow s2.buffer SILENCE_THRESHOLD && decide (dur < MAX_DURATION) then
      (s2, [Event.update "" false])
    else
      match processAudioBuffer fast quality s2.buffer s2.lastCommitted dur with
      | Except.ok (buf2, lc2, evs) =>
          ({ s2 with buffer := buf2, lastCommitted := lc2, lastTranscribeTime := now }, evs)
      | Except.error e =>
          (s2, [Event.errorLog ("Transcription error: " ++ e)])
  else
    (s2, [])

/-- One iteration of `_run_loop` of `Transcriber` (lines 79–117): check
the pause request flag first; when set, acknowledge it and do nothing
else this tick; otherwise clear the acknowledged flag, drain the queue
and run the transcription logic. -/
def tick (fast quality : Engine) (now : ℚ) (s : TState) : TState × List Event :=
  if s.pauseRequested then
    ({ s with paused := true }, [])
  else
    tickCore fast quality now (drain s)

/-- Commit step of the legacy `run_transcription_loop`
(`src/transcriber.py`, lines 106–120): re-transcribe with the quality
model; the final text is the trimmed quality text when non-empty, else
the fast text (`final_text = text_quality if text_quality else text`). -/
def legacyCommit (quality : Engine) (buf : List ℚ) (prompt textFast : String) :
    Except String String :=
  (quality buf prompt).map fun raw =>
    let textQuality := trimStr raw
    if textQuality ≠ "" then textQuality else textFast

/-- Observable side effects of the translation path in `src/src/ui.py`. -/
inductive UIEvent where
  /-- Call of `self.schedule_insert_translation(seg_id, text)`. -/
  | insertTranslation (segId : String) (text : String) : UIEvent
  /-- Call of `self.schedule_set_status(msg)`. -/
  | statusMsg (msg : String) : UIEvent
  /-- Call of `self.schedule_cleanup_lock(seg_id)` in the cleanup path. -/
  | cleanupLock (segId : String) : UIEvent
deriving Repr, DecidableEq

/-- Method `perform_translation` of `CaptionWindow` (`src/src/ui.py`,
lines 237–287): pause the transcriber, run the translation engine
(a black box covering lazy model load and `generate`; `Except.error` is
a raised exception), emit the trimmed translation or a status message on
error, and in the `finally` path schedule the lock cleanup and resume
the transcriber. The bounded wait for the acknowledged flag only
consumes time and is not part of the state transition. -/
def performTranslation (translate : String → Except String String)
    (segId text : String) (s : TState) : TState × List UIEvent :=
  let s1 := pause s
  match translate text with
  | Except.ok translation =>
      (resume s1, [UIEvent.insertTranslation segId (trimStr translation),
                   UIEvent.cleanupLock segId])
  | Except.error e =>
      (resume s1, [UIEvent.statusMsg ("❌ Translation Error: " ++ e),
                   UIEvent.cleanupLock segId])

/-- External interaction of one loop step: either the capture callback
enqueues a frame, or the transcription loop runs one tick at a given
wall-clock time. -/
inductive Op where
  | enq (frame : List ℚ) : Op
  | tick (now : ℚ) : Op

/-- One interaction step applied to the state. -/
def step (fast quality : Engine) (s : TState) : Op → TState × List Event
  | Op.enq f => (enqueueFrame s f, [])
  | Op.tick now => tick fast quality now s

/-- Run a sequence of interaction steps, concatenating the event traces. -/
def runOps (fast quality : Engine) (s : TState) : List Op → TState × List Event
  | [] => (s, [])
  | op :: rest =>
      let r := step fast quality s op
      let r2 := runOps fast quality r.1 rest
      (r2.1, r.2 ++ r2.2)

/-- Frames enqueued by a sequence of interaction steps, in order. -/
def framesOf : List Op → List (List ℚ)
  | [] => []
  | Op.enq f :: rest => f :: framesOf rest
  | Op.tick _ :: rest => framesOf rest

/-- Test whether an event is a `status_callback` invocation. -/
def isStatusEvent : Event → Bool
  | Event.status _ => true
  | _ => false

/-- Example buffer: 0.5 s of loud signal followed by 0.5 s of silence
(16000 samples total), driving a concrete commit. -/
def exBuf : List ℚ := List.replicate 8000 1 ++ List.replicate 8000 0

/-- Example transcriber state holding `exBuf` with an empty queue. -/
def exState : TState :=
  { queue := [], buffer := exBuf, lastTranscribeTime := 0, lastCommitted := "",
    pauseRequested := false, paused := false }

/-! Helper lemmas shared by the claim theorems. -/

theorem drain_lastCommitted (s : TState) : (drain s).lastCommitted = s.lastCommitted := rfl

theorem drain_lastTranscribeTime (s : TState) :
    (drain s).lastTranscribeTime = s.lastTranscribeTime := rfl

theorem drain_buffer (s : TState) : (drain s).buffer = s.buffer ++ s.queue.flatten := rfl

theorem drain_paused (s : TState) : (drain s).paused = false := rfl

theorem tick_pause_eq (fast quality : Engine) (now : ℚ) (s : TState)
    (h : s.pauseRequested = true) :
    tick fast quality now s = ({ s with paused := true }, []) := by
  simp [tick, h]

theorem tick_go_eq (fast quality : Engine) (now : ℚ) (s : TState)
    (h : s.pauseRequested = false) :
    tick fast quality now s = tickCore fast quality now (drain s) := by
  simp [tick, h]

theorem tickCore_idle_eq (fast quality : Engine) (now : ℚ) (s2 : TState)
    (h : ¬ (MIN_DURATION ≤ durationOf s2.buffer ∧
        UPDATE_INTERVAL < now - s2.lastTranscribeTime)) :
    tickCore fast quality now s2 = (s2, []) := by
  simp only [tickCore]
  rw [if_neg h]

theorem tickCore_silence_eq (fast quality : Engine) (now : ℚ) (s2 : TState)
    (h : MIN_DURATION ≤ durationOf s2.buffer ∧
        UPDATE_INTERVAL < now - s2.lastTranscribeTime)
    (hsil : (rmsBelow s2.buffer SILENCE_THRESHOLD &&
        decide (durationOf s2.buffer < MAX_DURATION)) = true) :
    tickCore fast quality now s2 = (s2, [Event.update "" false]) := by
  simp only [tickCore]
  rw [if_pos h, if_pos hsil]

theorem tickCore_ok_eq (fast quality : Engine) (now : ℚ) (s2 : TState)
    (buf2 : List ℚ) (lc2 : String) (evs : List Event)
    (h : MIN_DURATION ≤ durationOf s2.buffer ∧
        UPDATE_INTERVAL < now - s2.lastTranscribeTime)
    (hsil : (rmsBelow s2.buffer SILENCE_THRESHOLD &&
        decide (durationOf s2.buffer < MAX_DURATION)) = false)
    (hpab : processAudioBuffer fast quality s2.buffer s2.lastCommitted
        (durationOf s2.buffer) = Except.ok (buf2, lc2, evs)) :
    tickCore fast quality now s2 =
      ({ s2 with buffer := buf2, lastCommitted := lc2, lastTranscribeTime := now }, evs) := by
  simp only [tickCore]
  rw [if_pos h, hsil, hpab]
  simp

theorem tickCore_error_eq (fast quality : Engine) (now : ℚ) (s2 : TState) (e : String)
    (h : MIN_DURATION ≤ durationOf s2.buffer ∧
        UPDATE_INTERVAL < now - s2.lastTranscribeTime)
    (hsil : (rmsBelow s2.buffer SILENCE_THRESHOLD &&
        decide (durationOf s2.buffer < MAX_DURATION)) = false)
    (hpab : processAudioBuffer fast quality s2.buffer s2.lastCommitted
        (durationOf s2.buffer) = Except.error e) :
    tickCore fast quality now s2 =
      (s2, [Event.errorLog ("Transcription error: " ++ e)]) := by
  simp only [tickCore]
  rw [if_pos h, hsil, hpab]
  simp

theorem strTakeRight_length (s : String) (n : ℕ) :
    (strTakeRight s n).length = s.length - (s.length - n) := by
  show (s.data.drop (s.data.length - n)).length = s.data.length - (s.data.length - n)
  exact List.length_drop _ _

theorem appendContext_length_le (lc t : String) : (appendContext lc t).length ≤ 1000 := by
  simp only [appendContext]
  split
  · rename_i h
    rw [strTakeRight_length]
    omega
  · rename_i h
    omega

theorem promptOf_length_le (lc : String) : (promptOf lc).length ≤ 200 := by
  simp only [promptOf]
  split
  · rw [strTakeRight_length]
    omega
  · decide

theorem sumSq_replicate (n : ℕ) (c : ℚ) : sumSq (List.replicate n c) = n * (c * c) := by
  simp [sumSq, List.map_replicate, List.sum_replicate, nsmul_eq_mul]

theorem rmsBelow_replicate_zero (n : ℕ) (hn : 0 < n) :
    rmsBelow (List.replicate n 0) SILENCE_THRESHOLD = true := by
  have hq : (0 : ℚ) < n := by exact_mod_cast hn
  simp only [rmsBelow, sumSq_replicate, SILENCE_THRESHOLD, List.length_replicate,
    decide_eq_true_eq]
  rw [mul_zero, mul_zero]
  positivity

theorem rmsBelow_replicate_one_16000 :
    rmsBelow (List.replicate 16000 1) SILENCE_THRESHOLD = false := by
  simp only [rmsBelow, sumSq_replicate, SILENCE_THRESHOLD, List.length_replicate,
    decide_eq_false_iff_not]
  norm_num

theorem commitText_ok_eq (quality : Engine) (buf : List ℚ) (lc prompt raw : String)
    (hq : quality buf prompt = Except.ok raw) :
    commitText quality buf lc prompt =
      Except.ok ([], appendContext lc (trimStr raw),
        [Event.logCommit (trimStr raw), Event.update (trimStr raw) true]) := by
  simp only [commitText, hq, Except.map]

theorem commitText_spy_prompt (buf : List ℚ) (lc prompt : String) :
    commitText (fun _ p => Except.error p) buf lc prompt = Except.error prompt := rfl

theorem processAudioBuffer_fast_ok (fast quality : Engine) (buf : List ℚ)
    (lc : String) (dur : ℚ) (raw : String)
    (hf : fast buf (promptOf lc) = Except.ok raw) :
    processAudioBuffer fast quality buf lc dur =
      (if echoFiltered raw (promptOf lc) ≠ "" then
        if shouldCommit (echoFiltered raw (promptOf lc)) buf dur then
          commitText quality buf lc (promptOf lc)
        else
          Except.ok (buf, lc, [Event.update (echoFiltered raw (promptOf lc)) false])
      else
        Except.ok (buf, lc, [])) := by
  simp only [processAudioBuffer, hf, Except.bind]

theorem processAudioBuffer_spy_prompt (quality : Engine) (buf : List ℚ)
    (lc : String) (dur : ℚ) :
    processAudioBuffer (fun _ p => Except.error p) quality buf lc dur =
      Except.error (promptOf lc) := rfl

theorem processAudioBuffer_ok_cases (fast quality : Engine) (buf : List ℚ)
    (lc : String) (dur : ℚ) (buf2 : List ℚ) (lc2 : String) (evs : List Event)
    (h : processAudioBuffer fast quality buf lc dur = Except.ok (buf2, lc2, evs)) :
    (buf2 = buf ∧ lc2 = lc ∧ ∀ t b, Event.update t b ∈ evs → b = false) ∨
    (buf2 = [] ∧ ∃ t, lc2 = appendContext lc t ∧
      evs = [Event.logCommit t, Event.update t true]) := by
  cases hf : fast buf (promptOf lc) with
  | error e =>
      exfalso
      rw [processAudioBuffer, hf] at h
      simp [Except.bind] at h
  | ok raw =>
      rw [processAudioBuffer_fast_ok fast quality buf lc dur raw hf] at h
      by_cases hne : echoFiltered raw (promptOf lc) ≠ ""
      · rw [if_pos hne] at h
        by_cases hsc : shouldCommit (echoFiltered raw (promptOf lc)) buf dur = true
        · rw [if_pos hsc] at h
          cases hq : quality buf (promptOf lc) with
          | error e =>
              exfalso
              rw [commitText, hq] at h
              simp [Except.map] at h
          | ok rawq =>
              rw [commitText_ok_eq quality buf lc (promptOf lc) rawq hq] at h
              right
              simp only [Except.ok.injEq, Prod.mk.injEq] at h
              obtain ⟨hb, hl, he⟩ := h
              exact ⟨hb.symm, trimStr rawq, hl.symm, he.symm⟩
        · rw [if_neg hsc] at h
          simp only [Except.ok.injEq, Prod.mk.injEq] at h
          obtain ⟨hb, hl, he⟩ := h
          left
          refine ⟨hb.symm, hl.symm, ?_⟩
          intro t b hmem
          rw [← he] at hmem
          simp at hmem
          exact hmem.2
      · rw [if_neg hne] at h
        simp only [Except.ok.injEq, Prod.mk.injEq] at h
        obtain ⟨hb, hl, he⟩ := h
        left
        refine ⟨hb.symm, hl.symm, ?_⟩
        intro t b hmem
        rw [← he] at hmem
        simp at hmem

theorem tickCore_paused_eq (fast quality : Engine) (now : ℚ) (s2 : TState) :
    ((tickCore fast quality now s2).1).paused = s2.paused := by
  simp only [tickCore]
  split
  · split
    · rfl
    · split
      · rfl
      · rfl
  · rfl

theorem tick_shape (fast quality : Engine) (now : ℚ) (s : TState) :
    (s.pauseRequested = true ∧ tick fast quality now s = ({ s with paused := true }, [])) ∨
    (s.pauseRequested = false ∧ (tick fast quality now s).1.queue = [] ∧
      (((tick fast quality now s).1.buffer = s.buffer ++ s.queue.flatten ∧
        (tick fast quality now s).1.lastCommitted = s.lastCommitted ∧
        ∀ t, Event.update t true ∉ (tick fast quality now s).2) ∨
       ((tick fast quality now s).1.buffer = [] ∧
        ∃ t, Event.update t true ∈ (tick fast quality now s).2 ∧
          (tick fast quality now s).1.lastCommitted = appendContext s.lastCommitted t ∧
          ((tick fast quality now s).1.lastCommitted).length ≤ 1000))) := by
  by_cases hp : s.pauseRequested = true
  · exact Or.inl ⟨hp, tick_pause_eq fast quality now s hp⟩
  · have hp2 : s.pauseRequested = false := by
      cases h : s.pauseRequested
      · rfl
      · exact absurd h hp
    right
    refine ⟨hp2, ?_⟩
    rw [tick_go_eq fast quality now s hp2]
    by_cases hc : MIN_DURATION ≤ durationOf (drain s).buffer ∧
        UPDATE_INTERVAL < now - (drain s).lastTranscribeTime
    · by_cases hsil : (rmsBelow (drain s).buffer SILENCE_THRESHOLD &&
          decide (durationOf (drain s).buffer < MAX_DURATION)) = true
      · rw [tickCore_silence_eq fast quality now (drain s) hc hsil]
        refine ⟨rfl, Or.inl ⟨rfl, rfl, ?_⟩⟩
        intro t hmem
        simp at hmem
      · have hsil2 : (rmsBelow (drain s).buffer SILENCE_THRESHOLD &&
            decide (durationOf (drain s).buffer < MAX_DURATION)) = false := by
          cases h : (rmsBelow (drain s).buffer SILENCE_THRESHOLD &&
              decide (durationOf (drain s).buffer < MAX_DURATION))
          · rfl
          · exact absurd h hsil
        cases hpab : processAudioBuffer fast quality (drain s).buffer (drain s).lastCommitted
            (durationOf (drain s).buffer) with
        | ok r =>
            obtain ⟨buf2, lc2, evs⟩ := r
            rw [tickCore_ok_eq fast quality now (drain s) buf2 lc2 evs hc hsil2 hpab]
            rcases processAudioBuffer_ok_cases fast quality (drain s).buffer
                (drain s).lastCommitted (durationOf (drain s).buffer) buf2 lc2 evs hpab with
              ⟨hb, hl, hev⟩ | ⟨hb, t, hl, hev⟩
            · refine ⟨rfl, Or.inl ⟨?_, ?_, ?_⟩⟩
              · rw [hb]; rfl
              · rw [hl]; rfl
              · intro t hmem
                have := hev t true hmem
                simp at this
            · refine ⟨rfl, Or.inr ⟨hb, t, ?_, ?_, ?_⟩⟩
              · rw [hev]; simp
              · show lc2 = appendContext s.lastCommitted t
                rw [hl]; rfl
              · show lc2.length ≤ 1000
                rw [hl, drain_lastCommitted]
                exact appendContext_length_le s.lastCommitted t
        | error e =>
            rw [tickCore_error_eq fast quality now (drain s) e hc hsil2 hpab]
            refine ⟨rfl, Or.inl ⟨rfl, rfl, ?_⟩⟩
            intro t hmem
            simp at hmem
    · rw [tickCore_idle_eq fast quality now (drain s) hc]
      refine ⟨rfl, Or.inl ⟨rfl, rfl, ?_⟩⟩
      intro t hmem
      simp at hmem

theorem runOps_cons (fast quality : Engine) (op : Op) (rest : List Op) (s : TState) :
    runOps fast quality s (op :: rest) =
      ((runOps fast quality (step fast quality s op).1 rest).1,
        (step fast quality s op).2 ++ (runOps fast quality (step fast quality s op).1 rest).2) :=
  rfl

theorem runOps_content (fast quality : Engine) (ops : List Op) (s : TState)
    (hnc : ∀ t, Event.update t true ∉ (runOps fast quality s ops).2) :
    (runOps fast quality s ops).1.buffer ++ (runOps fast quality s ops).1.queue.flatten =
      s.buffer ++ s.queue.flatten ++ (framesOf ops).flatten := by
  induction ops generalizing s with
  | nil => simp [runOps, framesOf]
  | cons op rest ih =>
      have hnc2 : ∀ t,
          Event.update t true ∉ (runOps fast quality (step fast quality s op).1 rest).2 := by
        intro t hmem
        apply hnc t
        rw [runOps_cons]
        exact List.mem_append_right _ hmem
      rw [runOps_cons]
      cases op with
      | enq f =>
          have hih := ih (step fast quality s (Op.enq f)).1 hnc2
          simp only [step] at hih ⊢
          rw [hih]
          simp [enqueueFrame, framesOf, List.append_assoc]
      | tick now =>
          have hih := ih (step fast quality s (Op.tick now)).1 hnc2
          simp only [step] at hih hnc2 ⊢
          rcases tick_shape fast quality now s with ⟨hp, heq⟩ | ⟨hp, hq0, hcase⟩
          · rw [heq] at hih ⊢
            rw [hih]
            simp [framesOf]
          · rcases hcase with ⟨hbuf, hlc, hev⟩ | ⟨hbuf, t, hmem, hrest⟩
            · rw [hih, hq0, hbuf]
              simp [framesOf]
            · exfalso
              apply hnc t
              rw [runOps_cons]
              exact List.mem_append_left _ hmem

theorem exBuf_length : exBuf.length = 16000 := by
  rw [exBuf, List.length_append, List.length_replicate, List.length_replicate]

theorem sumSq_append (xs ys : List ℚ) : sumSq (xs ++ ys) = sumSq xs + sumSq ys := by
  simp [sumSq]

theorem sumSq_exBuf : sumSq exBuf = 8000 := by
  rw [exBuf, sumSq_append, sumSq_replicate, sumSq_replicate]
  norm_num

theorem rmsBelow_exBuf : rmsBelow exBuf SILENCE_THRESHOLD = false := by
  simp only [rmsBelow, sumSq_exBuf, exBuf_length, SILENCE_THRESHOLD,
    decide_eq_false_iff_not]
  norm_num

theorem exBuf_drop : exBuf.drop (exBuf.length - lastChunkLen) = List.replicate 8000 0 := by
  rw [exBuf_length]
  show exBuf.drop 8000 = List.replicate 8000 0
  rw [exBuf]
  exact List.drop_left' (by rw [List.length_replicate])

theorem isSilenceEndOf_exBuf : isSilenceEndOf exBuf = true := by
  rw [isSilenceEndOf, if_pos (by rw [exBuf_length]; decide), exBuf_drop]
  exact rmsBelow_replicate_zero 8000 (by norm_num)

theorem durationOf_exBuf : durationOf exBuf = 1 := by
  rw [durationOf, exBuf_length]
  norm_num [SAMPLE_RATE]

theorem drain_exState : drain exState = exState := by
  simp [drain, exState]

theorem shouldCommit_exBuf : shouldCommit "Hello." exBuf 1 = true := by
  rw [shouldCommit, isSilenceEndOf_exBuf]
  decide

theorem processAudioBuffer_exBuf :
    processAudioBuffer (fun _ _ => Except.ok "Hello.") (fun _ _ => Except.ok "Hi there.")
        exBuf "" 1 =
      Except.ok ([], " Hi there.",
        [Event.logCommit "Hi there.", Event.update "Hi there." true]) := by
  rw [processAudioBuffer_fast_ok _ _ exBuf "" 1 "Hello." rfl,
    if_pos (by decide),
    if_pos (by
      rw [show echoFiltered "Hello." (promptOf "") = "Hello." from by decide]
      exact shouldCommit_exBuf),
    commitText_ok_eq _ exBuf "" (promptOf "") "Hi there." rfl,
    show trimStr "Hi there." = "Hi there." from by decide,
    show appendContext "" "Hi there." = " Hi there." from by decide]

theorem exTick_eq :
    tick (fun _ _ => Except.ok "Hello.") (fun _ _ => Except.ok "Hi there.") 1 exState =
      ({ exState with buffer := [], lastCommitted := " Hi there.", lastTranscribeTime := 1 },
        [Event.logCommit "Hi there.", Event.update "Hi there." true]) := by
  rw [tick_go_eq _ _ _ _ rfl, drain_exState]
  have hc : MIN_DURATION ≤ durationOf exState.buffer ∧
      UPDATE_INTERVAL < 1 - exState.lastTranscribeTime := by
    constructor
    · show MIN_DURATION ≤ durationOf exBuf
      rw [durationOf_exBuf, MIN_DURATION]
    · show UPDATE_INTERVAL < 1 - 0
      norm_num [UPDATE_INTERVAL]
  have hsil : (rmsBelow exState.buffer SILENCE_THRESHOLD &&
      decide (durationOf exState.buffer < MAX_DURATION)) = false := by
    show (rmsBelow exBuf SILENCE_THRESHOLD && decide (durationOf exBuf < MAX_DURATION)) = false
    rw [rmsBelow_exBuf, Bool.false_and]
  rw [tickCore_ok_eq _ _ 1 exState [] " Hi there."
      [Event.logCommit "Hi there.", Event.update "Hi there." true] hc hsil
      (by show processAudioBuffer _ _ exBuf "" (durationOf exBuf) = _
          rw [durationOf_exBuf]
          exact processAudioBuffer_exBuf)]

/-- C2: for every evaluated tick at which the buffer duration exceeds
`MAX_DURATION` (15.0 s), a commit is forced regardless of
sentence-terminal punctuation and of trailing-silence energy: the commit
predicate is true for every text and every buffer once
`MAX_DURATION < duration`, and `_process_audio_buffer` then reaches
`_commit_text` on the same buffer and prompt (the hard cap makes the
silence and punctuation tests irrelevant; as in the code, the predicate
is evaluated on ticks whose echo-filtered fast text is non-empty). -/
theorem claim_C2_hard_cap_forces_commit :
    (∀ (text : String) (buf : List ℚ) (dur : ℚ),
      MAX_DURATION < dur → shouldCommit text buf dur = true) ∧
    (∀ (fast quality : Engine) (buf : List ℚ) (lc : String) (dur : ℚ) (raw : String),
      MAX_DURATION < dur →
      fast buf (promptOf lc) = Except.ok raw →
      echoFiltered raw (promptOf lc) ≠ "" →
      processAudioBuffer fast quality buf lc dur =
        commitText quality buf lc (promptOf lc)) := by
  have hpred : ∀ (text : String) (buf : List ℚ) (dur : ℚ),
      MAX_DURATION < dur → shouldCommit text buf dur = true := by
    intro text buf dur h
    rw [shouldCommit]
    simp [h]
  refine ⟨hpred, ?_⟩
  intro fast quality buf lc dur raw hdur hf hne
  rw [processAudioBuffer_fast_ok fast quality buf lc dur raw hf, if_pos hne,
    if_pos (hpred _ _ _ hdur)]

/-- Witness for C2 at a concrete input: duration 16 s, a loud short
buffer and a fast text with no terminal punctuation. -/
theorem claim_C2_hard_cap_forces_commit_witness :
    shouldCommit "no punctuation here" (List.replicate 16 1) 16 = true ∧
    processAudioBuffer (fun _ _ => Except.ok "a") (fun _ _ => Except.ok "b") [] "" 16 =
      commitText (fun _ _ => Except.ok "b") [] "" (promptOf "") :=
  ⟨claim_C2_hard_cap_forces_commit.1 "no punctuation here" (List.replicate 16 1) 16
      (by rw [MAX_DURATION]; norm_num),
    claim_C2_hard_cap_forces_commit.2 (fun _ _ => Except.ok "a") (fun _ _ => Except.ok "b")
      [] "" 16 "a" (by rw [MAX_DURATION]; norm_num) rfl (by decide)⟩

/-- C3: on every evaluated tick whose whole-buffer RMS energy is below
`SILENCE_THRESHOLD` while the duration is below `MAX_DURATION`, the
state machine emits exactly one empty, non-final preview (clearing any
shown tentative text), changes nothing beyond the drain, and invokes no
inference engine: the tick's outcome is the same for every pair of
engines. -/
theorem claim_C3_silence_skip (fast quality : Engine) (now : ℚ) (s : TState)
    (hp : s.pauseRequested = false)
    (hmin : MIN_DURATION ≤ durationOf (drain s).buffer)
    (hupd : UPDATE_INTERVAL < now - s.lastTranscribeTime)
    (hrms : rmsBelow (drain s).buffer SILENCE_THRESHOLD = true)
    (hdur : durationOf (drain s).buffer < MAX_DURATION) :
    tick fast quality now s = (drain s, [Event.update "" false]) ∧
    ∀ fast2 quality2 : Engine, tick fast2 quality2 now s = tick fast quality now s := by
  have key : ∀ f2 q2 : Engine, tick f2 q2 now s = (drain s, [Event.update "" false]) := by
    intro f2 q2
    rw [tick_go_eq f2 q2 now s hp]
    exact tickCore_silence_eq f2 q2 now (drain s)
      ⟨hmin, by rw [drain_lastTranscribeTime]; exact hupd⟩
      (by rw [hrms, Bool.true_and, decide_eq_true_eq]; exact hdur)
  exact ⟨key fast quality, fun f2 q2 => (key f2 q2).trans (key fast quality).symm⟩

/-- Witness for C3: one second of silent samples, engines that would
return text if they were consulted. -/
theorem claim_C3_silence_skip_witness :
    tick (fun _ _ => Except.ok "ghost text.") (fun _ _ => Except.ok "ghost text.") 1
        { queue := [], buffer := List.replicate 16000 0, lastTranscribeTime := 0,
          lastCommitted := "", pauseRequested := false, paused := false } =
      (drain { queue := [], buffer := List.replicate 16000 0, lastTranscribeTime := 0,
               lastCommitted := "", pauseRequested := false, paused := false },
        [Event.update "" false]) :=
  (claim_C3_silence_skip (fun _ _ => Except.ok "ghost text.")
    (fun _ _ => Except.ok "ghost text.") 1 _ rfl
    (by show MIN_DURATION ≤ durationOf (List.replicate 16000 0 ++ List.flatten [])
        rw [List.flatten_nil, List.append_nil, durationOf, List.length_replicate,
          MIN_DURATION, SAMPLE_RATE]
        norm_num)
    (by rw [UPDATE_INTERVAL]; norm_num)
    (by show rmsBelow (List.replicate 16000 0 ++ List.flatten []) SILENCE_THRESHOLD = true
        rw [List.flatten_nil, List.append_nil]
        exact rmsBelow_replicate_zero 16000 (by norm_num))
    (by show durationOf (List.replicate 16000 0 ++ List.flatten []) < MAX_DURATION
        rw [List.flatten_nil, List.append_nil, durationOf, List.length_replicate,
          MAX_DURATION, SAMPLE_RATE]
        norm_num)).1

/-- C4: on every tick where the fast engine is invoked, a returned text
that equals the supplied prompt case-insensitively (after stripping, as
the code compares) is discarded as a hallucinated echo:
`_process_audio_buffer` leaves the buffer and the trailing context
untouched and emits no event at all, so the echoed prompt is never
emitted as preview or commit text. -/
theorem claim_C4_echo_filter_discards (fast quality : Engine) (buf : List ℚ)
    (lc : String) (dur : ℚ) (raw : String)
    (hf : fast buf (promptOf lc) = Except.ok raw)
    (hecho : lowerStr (trimStr raw) = lowerStr (trimStr (promptOf lc))) :
    processAudioBuffer fast quality buf lc dur = Except.ok (buf, lc, []) := by
  rw [processAudioBuffer_fast_ok fast quality buf lc dur raw hf]
  have hz : echoFiltered raw (promptOf lc) = "" := by
    rw [echoFiltered]
    simp only [hecho, if_pos]
  rw [hz]
  simp

/-- Witness for C4: trailing context "hello" produces prompt "hello";
the fast engine echoes " Hello" which strips and lowercases to the
prompt, so nothing is emitted. -/
theorem claim_C4_echo_filter_discards_witness :
    processAudioBuffer (fun _ _ => Except.ok " Hello") (fun _ _ => Except.ok "x")
        [1] "hello" 2 = Except.ok ([1], "hello", []) :=
  claim_C4_echo_filter_discards (fun _ _ => Except.ok " Hello") (fun _ _ => Except.ok "x")
    [1] "hello" 2 " Hello" rfl (by decide)

/-- C8: for every invocation of the translation task, the Resource Gate
is released on every exit path — after `perform_translation` returns,
the pause request flag is cleared (the transcriber is resumed) whether
the engine call succeeded or raised — the per-segment lock cleanup is
always scheduled, and on error the failure is surfaced as a status
message. -/
theorem claim_C8_gate_always_released (translate : String → Except String String)
    (segId text : String) (s : TState) :
    ((performTranslation translate segId text s).1).pauseRequested = false ∧
    UIEvent.cleanupLock segId ∈ (performTranslation translate segId text s).2 ∧
    ∀ e, translate text = Except.error e →
      (performTranslation translate segId text s).2 =
        [UIEvent.statusMsg ("❌ Translation Error: " ++ e),
          UIEvent.cleanupLock segId] := by
  rw [performTranslation]
  cases h : translate text with
  | ok tr =>
      refine ⟨rfl, by simp, ?_⟩
      intro e he
      exact absurd he (by simp)
  | error e =>
      refine ⟨rfl, by simp, ?_⟩
      intro e2 he2
      injection he2 with h3
      rw [h3]

/-- Witness for C8 at a concrete failing translation engine. -/
theorem claim_C8_gate_always_released_witness :
    ((performTranslation (fun _ => Except.error "engine down") "seg1" "hola"
        { queue := [], buffer := [], lastTranscribeTime := 0, lastCommitted := "",
          pauseRequested := false, paused := false }).1).pauseRequested = false ∧
    (performTranslation (fun _ => Except.error "engine down") "seg1" "hola"
        { queue := [], buffer := [], lastTranscribeTime := 0, lastCommitted := "",
          pauseRequested := false, paused := false }).2 =
      [UIEvent.statusMsg "❌ Translation Error: engine down",
        UIEvent.cleanupLock "seg1"] :=
  ⟨(claim_C8_gate_always_released (fun _ => Except.error "engine down") "seg1" "hola"
      { queue := [], buffer := [], lastTranscribeTime := 0, lastCommitted := "",
        pauseRequested := false, paused := false }).1,
    (claim_C8_gate_always_released (fun _ => Except.error "engine down") "seg1" "hola"
      { queue := [], buffer := [], lastTranscribeTime := 0, lastCommitted := "",
        pauseRequested := false, paused := false }).2.2 "engine down" rfl⟩

/-- C9: on every tick that starts with the pause request flag set, the
state machine sets the acknowledged/paused flag and performs no other
work — no drain, no inference (the outcome does not depend on the
engines), no emission — and this repeats while the flag stays set; on
every tick that starts with the flag cleared (as `resume` leaves it),
the acknowledged flag is cleared. -/
theorem claim_C9_pause_handshake :
    (∀ (fast quality : Engine) (now : ℚ) (s : TState), s.pauseRequested = true →
      tick fast quality now s = ({ s with paused := true }, [])) ∧
    (∀ (fast quality : Engine) (now : ℚ) (s : TState), s.pauseRequested = false →
      ((tick fast quality now s).1).paused = false) ∧
    (∀ s : TState, (resume s).pauseRequested = false) ∧
    (∀ s : TState, (pause s).pauseRequested = true) := by
  refine ⟨tick_pause_eq, ?_, fun _ => rfl, fun _ => rfl⟩
  intro fast quality now s h
  rw [tick_go_eq fast quality now s h, tickCore_paused_eq]
  exact drain_paused s

/-- Witness for C9: a paused tick acknowledges and does nothing; the
tick after `resume` clears the acknowledged flag. -/
theorem claim_C9_pause_handshake_witness :
    tick (fun _ _ => Except.ok "x") (fun _ _ => Except.ok "y") 1
        { queue := [[1]], buffer := [], lastTranscribeTime := 0, lastCommitted := "",
          pauseRequested := true, paused := false } =
      ({ queue := [[1]], buffer := [], lastTranscribeTime := 0, lastCommitted := "",
         pauseRequested := true, paused := true }, []) ∧
    ((tick (fun _ _ => Except.ok "x") (fun _ _ => Except.ok "y") 1
        (resume { queue := [], buffer := [], lastTranscribeTime := 0, lastCommitted := "",
                  pauseRequested := true, paused := true })).1).paused = false :=
  ⟨claim_C9_pause_handshake.1 (fun _ _ => Except.ok "x") (fun _ _ => Except.ok "y") 1
      { queue := [[1]], buffer := [], lastTranscribeTime := 0, lastCommitted := "",
        pauseRequested := true, paused := false } rfl,
    claim_C9_pause_handshake.2.1 (fun _ _ => Except.ok "x") (fun _ _ => Except.ok "y") 1
      (resume { queue := [], buffer := [], lastTranscribeTime := 0, lastCommitted := "",
                pauseRequested := true, paused := true }) rfl⟩

/-- C10: the fallback branch of the trailing-silence check that assumes
silence for buffers of at most 0.5 s is unreachable from the loop:
whenever the duration is at least `MIN_DURATION` (the only condition
under which `_run_loop` calls `_process_audio_buffer`), the buffer holds
more than `lastChunkLen` samples and the trailing-silence value is the
RMS test on the full 0.5 s window; and when the duration is below
`MIN_DURATION` the tick does nothing beyond the drain. -/
theorem claim_C10_short_buffer_fallback_unreachable :
    (∀ buf : List ℚ, MIN_DURATION ≤ durationOf buf →
      lastChunkLen < buf.length ∧
      isSilenceEndOf buf =
        rmsBelow (buf.drop (buf.length - lastChunkLen)) SILENCE_THRESHOLD) ∧
    (∀ (fast quality : Engine) (now : ℚ) (s : TState), s.pauseRequested = false →
      ¬ MIN_DURATION ≤ durationOf (drain s).buffer →
      tick fast quality now s = (drain s, [])) := by
  constructor
  · intro buf h
    rw [durationOf, MIN_DURATION] at h
    have h16 : ((SAMPLE_RATE : ℕ) : ℚ) ≤ (buf.length : ℚ) :=
      (one_le_div (by rw [SAMPLE_RATE]; norm_num)).mp h
    have hlen : 16000 ≤ buf.length := by
      rw [SAMPLE_RATE] at h16
      exact_mod_cast h16
    have hgt : lastChunkLen < buf.length := by
      rw [lastChunkLen]; omega
    exact ⟨hgt, by rw [isSilenceEndOf, if_pos hgt]⟩
  · intro fast quality now s hp hlt
    rw [tick_go_eq fast quality now s hp]
    exact tickCore_idle_eq fast quality now (drain s) (fun hc => hlt hc.1)

/-- Witness for C10: a one-second buffer is longer than the trailing
window, and a tick whose drained buffer is shorter than `MIN_DURATION`
is a no-op beyond the drain. -/
theorem claim_C10_short_buffer_fallback_unreachable_witness :
    (lastChunkLen < (List.replicate 16000 (0 : ℚ)).length ∧
      isSilenceEndOf (List.replicate 16000 (0 : ℚ)) =
        rmsBelow ((List.replicate 16000 (0 : ℚ)).drop
          ((List.replicate 16000 (0 : ℚ)).length - lastChunkLen)) SILENCE_THRESHOLD) ∧
    tick (fun _ _ => Except.ok "x") (fun _ _ => Except.ok "y") 1
        { queue := [], buffer := [1], lastTranscribeTime := 0, lastCommitted := "",
          pauseRequested := false, paused := false } =
      (drain { queue := [], buffer := [1], lastTranscribeTime := 0, lastCommitted := "",
               pauseRequested := false, paused := false }, []) :=
  ⟨claim_C10_short_buffer_fallback_unreachable.1 (List.replicate 16000 (0 : ℚ))
      (by rw [durationOf, List.length_replicate, MIN_DURATION, SAMPLE_RATE]; norm_num),
    claim_C10_short_buffer_fallback_unreachable.2 (fun _ _ => Except.ok "x")
      (fun _ _ => Except.ok "y") 1
      { queue := [], buffer := [1], lastTranscribeTime := 0, lastCommitted := "",
        pauseRequested := false, paused := false } rfl
      (by show ¬ MIN_DURATION ≤ durationOf ([1] ++ List.flatten [])
          rw [List.flatten_nil, List.append_nil, durationOf, MIN_DURATION, SAMPLE_RATE]
          norm_num)⟩

/-- C5: the TrailingContext (`last_committed_text`) is mutated only by a
commit (any tick that changes it emits a final update, and the new value
is the previous context, a space and the committed text, truncated to
the last 1000 characters); after every commit its length is at most
1000; both engine calls receive the prompt `promptOf` of the current
context, which is its last 200 characters when it is non-empty (the
placeholder `" "` otherwise) and in every case is at most 200 characters
long. -/
theorem claim_C5_trailing_context_invariants :
    (∀ (fast quality : Engine) (now : ℚ) (s : TState),
      ((tick fast quality now s).1).lastCommitted ≠ s.lastCommitted →
      ∃ t, Event.update t true ∈ (tick fast quality now s).2 ∧
        ((tick fast quality now s).1).lastCommitted = appendContext s.lastCommitted t) ∧
    (∀ (quality : Engine) (buf : List ℚ) (lc prompt raw : String),
      quality buf prompt = Except.ok raw →
      commitText quality buf lc prompt =
        Except.ok ([], appendContext lc (trimStr raw),
          [Event.logCommit (trimStr raw), Event.update (trimStr raw) true]) ∧
        (appendContext lc (trimStr raw)).length ≤ 1000) ∧
    (∀ lc t : String, (appendContext lc t).length ≤ 1000) ∧
    (∀ (quality : Engine) (buf : List ℚ) (lc : String) (dur : ℚ),
      processAudioBuffer (fun _ p => Except.error p) quality buf lc dur =
        Except.error (promptOf lc)) ∧
    (∀ (buf : List ℚ) (lc prompt : String),
      commitText (fun _ p => Except.error p) buf lc prompt = Except.error prompt) ∧
    (∀ lc : String, lc ≠ "" → promptOf lc = strTakeRight lc 200) ∧
    (∀ lc : String, (promptOf lc).length ≤ 200) := by
  refine ⟨?_, ?_, appendContext_length_le, processAudioBuffer_spy_prompt,
    commitText_spy_prompt, ?_, promptOf_length_le⟩
  · intro fast quality now s hne
    rcases tick_shape fast quality now s with ⟨hp, heq⟩ | ⟨hp, hq0, hcase⟩
    · rw [heq] at hne
      exact absurd rfl hne
    · rcases hcase with ⟨hb, hl, hev⟩ | ⟨hb, t, hmem, hl, hlen⟩
      · exact absurd hl hne
      · exact ⟨t, hmem, hl⟩
  · intro quality buf lc prompt raw hq
    exact ⟨commitText_ok_eq quality buf lc prompt raw hq,
      appendContext_length_le lc (trimStr raw)⟩
  · intro lc h
    rw [promptOf, if_pos h]

/-- Witness for C5: the concrete commit tick of `exTick_eq` changes the
context to `" Hi there."` through `appendContext`, together with
concrete instances of the commit update rule and of the prompt rule. -/
theorem claim_C5_trailing_context_invariants_witness :
    (∃ t, Event.update t true ∈
        (tick (fun _ _ => Except.ok "Hello.") (fun _ _ => Except.ok "Hi there.") 1 exState).2 ∧
      ((tick (fun _ _ => Except.ok "Hello.") (fun _ _ => Except.ok "Hi there.") 1
          exState).1).lastCommitted = appendContext exState.lastCommitted t) ∧
    (commitText (fun _ _ => Except.ok " Done. ") [1] "before" " " =
        Except.ok ([], appendContext "before" (trimStr " Done. "),
          [Event.logCommit (trimStr " Done. "), Event.update (trimStr " Done. ") true]) ∧
      (appendContext "before" (trimStr " Done. ")).length ≤ 1000) ∧
    promptOf "hello" = strTakeRight "hello" 200 :=
  ⟨(claim_C5_trailing_context_invariants.1 (fun _ _ => Except.ok "Hello.")
      (fun _ _ => Except.ok "Hi there.") 1 exState
      (by rw [exTick_eq]; decide)),
    claim_C5_trailing_context_invariants.2.1 (fun _ _ => Except.ok " Done. ")
      [1] "before" " " " Done. " rfl,
    claim_C5_trailing_context_invariants.2.2.2.2.2.1 "hello" (by decide)⟩

/-- Concrete no-commit tick: one queued frame of a single sample drains
into the buffer, and the duration gate keeps the tick idle. -/
theorem idle_tick_example :
    tick (fun _ _ => Except.ok "x") (fun _ _ => Except.ok "y") 0
        { queue := [[1]], buffer := [], lastTranscribeTime := 0, lastCommitted := "",
          pauseRequested := false, paused := false } =
      (drain { queue := [[1]], buffer := [], lastTranscribeTime := 0, lastCommitted := "",
               pauseRequested := false, paused := false }, []) := by
  rw [tick_go_eq _ _ _ _ rfl]
  apply tickCore_idle_eq
  intro hc
  have h1 := hc.1
  simp [drain, durationOf, MIN_DURATION, SAMPLE_RATE] at h1
  norm_num at h1

/-- Trace of the concrete enqueue-then-idle-tick run: no events. -/
theorem runOps_example_trace :
    (runOps (fun _ _ => Except.ok "x") (fun _ _ => Except.ok "y")
        { queue := [], buffer := [], lastTranscribeTime := 0, lastCommitted := "",
          pauseRequested := false, paused := false } [Op.enq [1], Op.tick 0]).2 = [] := by
  show [] ++ ((tick (fun _ _ => Except.ok "x") (fun _ _ => Except.ok "y") 0
      { queue := [[1]], buffer := [], lastTranscribeTime := 0, lastCommitted := "",
        pauseRequested := false, paused := false }).2 ++ []) = []
  rw [idle_tick_example]
  rfl

/-- C6: the Streaming Buffer after a drain holds exactly the previous
samples followed by every queued frame in arrival order (so its sample
count is the previous count plus the sum of the drained frame lengths);
over any interleaving of enqueues and ticks without a commit, its
content together with the still-queued frames equals the concatenation
of all enqueued frames; a commit resets it to empty, and nothing else
clears a non-empty buffer. -/
theorem claim_C6_buffer_accounting :
    (∀ (fast quality : Engine) (now : ℚ) (s : TState), s.pauseRequested = false →
      (∀ t, Event.update t true ∉ (tick fast quality now s).2) →
      (tick fast quality now s).1.buffer = s.buffer ++ s.queue.flatten ∧
      ((tick fast quality now s).1.buffer).length =
        s.buffer.length + (s.queue.map List.length).sum) ∧
    (∀ (fast quality : Engine) (now : ℚ) (s : TState) (t : String),
      Event.update t true ∈ (tick fast quality now s).2 →
      (tick fast quality now s).1.buffer = []) ∧
    (∀ (fast quality : Engine) (now : ℚ) (s : TState),
      (tick fast quality now s).1.buffer = [] →
      s.buffer = [] ∨ ∃ t, Event.update t true ∈ (tick fast quality now s).2) ∧
    (∀ (fast quality : Engine) (ops : List Op) (s : TState),
      (∀ t, Event.update t true ∉ (runOps fast quality s ops).2) →
      (runOps fast quality s ops).1.buffer ++
          ((runOps fast quality s ops).1.queue).flatten =
        s.buffer ++ s.queue.flatten ++ (framesOf ops).flatten) := by
  refine ⟨?_, ?_, ?_, runOps_content⟩
  · intro fast quality now s hp hnc
    rcases tick_shape fast quality now s with ⟨hp2, heq⟩ | ⟨hp2, hq0, hcase⟩
    · rw [hp] at hp2
      exact absurd hp2 (by simp)
    · rcases hcase with ⟨hb, hl, hev⟩ | ⟨hb, t, hmem, hrest⟩
      · refine ⟨hb, ?_⟩
        rw [hb, List.length_append, List.length_flatten]
      · exact absurd hmem (hnc t)
  · intro fast quality now s t hmem
    rcases tick_shape fast quality now s with ⟨hp2, heq⟩ | ⟨hp2, hq0, hcase⟩
    · rw [heq] at hmem
      simp at hmem
    · rcases hcase with ⟨hb, hl, hev⟩ | ⟨hb, t2, hmem2, hrest⟩
      · exact absurd hmem (hev t)
      · exact hb
  · intro fast quality now s hnil
    rcases tick_shape fast quality now s with ⟨hp2, heq⟩ | ⟨hp2, hq0, hcase⟩
    · rw [heq] at hnil
      exact Or.inl hnil
    · rcases hcase with ⟨hb, hl, hev⟩ | ⟨hb, t, hmem, hrest⟩
      · rw [hb] at hnil
        rcases List.append_eq_nil.mp hnil with ⟨h1, _⟩
        exact Or.inl h1
      · exact Or.inr ⟨t, hmem⟩

/-- Witness for C6: a draining no-commit tick with one queued frame, the
concrete commit tick of `exTick_eq` resetting the buffer, and a
two-step enqueue-then-tick run. -/
theorem claim_C6_buffer_accounting_witness :
    ((tick (fun _ _ => Except.ok "x") (fun _ _ => Except.ok "y") 0
        { queue := [[1]], buffer := [], lastTranscribeTime := 0, lastCommitted := "",
          pauseRequested := false, paused := false }).1.buffer = [] ++ [[1]].flatten ∧
      ((tick (fun _ _ => Except.ok "x") (fun _ _ => Except.ok "y") 0
        { queue := [[1]], buffer := [], lastTranscribeTime := 0, lastCommitted := "",
          pauseRequested := false, paused := false }).1.buffer).length =
        ([] : List ℚ).length + ([[1]].map List.length).sum) ∧
    (tick (fun _ _ => Except.ok "Hello.") (fun _ _ => Except.ok "Hi there.") 1
        exState).1.buffer = [] ∧
    (runOps (fun _ _ => Except.ok "x") (fun _ _ => Except.ok "y")
        { queue := [], buffer := [], lastTranscribeTime := 0, lastCommitted := "",
          pauseRequested := false, paused := false } [Op.enq [1], Op.tick 0]).1.buffer ++
      ((runOps (fun _ _ => Except.ok "x") (fun _ _ => Except.ok "y")
        { queue := [], buffer := [], lastTranscribeTime := 0, lastCommitted := "",
          pauseRequested := false, paused := false } [Op.enq [1], Op.tick 0]).1.queue).flatten =
      [] ++ List.flatten [] ++ (framesOf [Op.enq [1], Op.tick 0]).flatten :=
  ⟨claim_C6_buffer_accounting.1 (fun _ _ => Except.ok "x") (fun _ _ => Except.ok "y") 0
      { queue := [[1]], buffer := [], lastTranscribeTime := 0, lastCommitted := "",
        pauseRequested := false, paused := false } rfl
      (by intro t h
          rw [idle_tick_example] at h
          simp at h),
    claim_C6_buffer_accounting.2.1 (fun _ _ => Except.ok "Hello.")
      (fun _ _ => Except.ok "Hi there.") 1 exState "Hi there."
      (by rw [exTick_eq]; decide),
    claim_C6_buffer_accounting.2.2.2 (fun _ _ => Except.ok "x") (fun _ _ => Except.ok "y")
      [Op.enq [1], Op.tick 0]
      { queue := [], buffer := [], lastTranscribeTime := 0, lastCommitted := "",
        pauseRequested := false, paused := false }
      (by intro t h
          rw [runOps_example_trace] at h
          simp at h)⟩

/-- Counterexample to C1 as stated: in the class-based state machine
(`Transcriber._commit_text`), when the quality model returns an empty
result while the fast result was `"Hello."`, the committed emission is
the empty string — not the fast result as the claim requires. -/
theorem claim_C1_counterexample :
    processAudioBuffer (fun _ _ => Except.ok "Hello.") (fun _ _ => Except.ok "")
        (List.replicate 100 1) "" 2 =
      Except.ok ([], " ", [Event.logCommit "", Event.update "" true]) ∧
    ("" : String) ≠ "Hello." := by
  constructor
  · have hsil : isSilenceEndOf (List.replicate 100 (1 : ℚ)) = true := by
      rw [isSilenceEndOf, if_neg]
      rw [List.length_replicate]
      decide
    have hsc : shouldCommit "Hello." (List.replicate 100 (1 : ℚ)) 2 = true := by
      rw [shouldCommit, hsil]
      decide
    rw [processAudioBuffer_fast_ok _ _ (List.replicate 100 1) "" 2 "Hello." rfl,
      if_pos (by decide),
      if_pos (by
        rw [show echoFiltered "Hello." (promptOf "") = "Hello." from by decide]
        exact hsc),
      commitText_ok_eq _ (List.replicate 100 1) "" (promptOf "") "" rfl,
      show trimStr "" = "" from by decide,
      show appendContext "" "" = " " from by decide]
  · decide

/-- C1 (amended): on every commit the state machine re-invokes the
quality variant on the same buffer and prompt as the fast call; in the
class-based `Transcriber._commit_text` the committed text is always the
trimmed quality result, even when it is empty (no fallback to the fast
result); the quality-if-non-empty-else-fast fallback holds only in the
legacy `run_transcription_loop`. -/
theorem claim_C1_commit_uses_quality_result :
    (∀ (quality : Engine) (buf : List ℚ) (lc prompt raw : String),
      quality buf prompt = Except.ok raw →
      commitText quality buf lc prompt =
        Except.ok ([], appendContext lc (trimStr raw),
          [Event.logCommit (trimStr raw), Event.update (trimStr raw) true])) ∧
    (∀ (quality : Engine) (buf : List ℚ) (prompt textFast raw : String),
      quality buf prompt = Except.ok raw →
      legacyCommit quality buf prompt textFast =
        Except.ok (if trimStr raw ≠ "" then trimStr raw else textFast)) ∧
    (∀ (fast quality : Engine) (buf : List ℚ) (lc : String) (dur : ℚ) (raw : String),
      fast buf (promptOf lc) = Except.ok raw →
      echoFiltered raw (promptOf lc) ≠ "" →
      shouldCommit (echoFiltered raw (promptOf lc)) buf dur = true →
      processAudioBuffer fast quality buf lc dur =
        commitText quality buf lc (promptOf lc)) := by
  refine ⟨commitText_ok_eq, ?_, ?_⟩
  · intro quality buf prompt textFast raw hq
    rw [legacyCommit, hq]
    rfl
  · intro fast quality buf lc dur raw hf hne hsc
    rw [processAudioBuffer_fast_ok fast quality buf lc dur raw hf, if_pos hne, if_pos hsc]

/-- Witness for the amended C1: concrete commits through
`_commit_text`, the legacy fallback, and the re-invocation route. -/
theorem claim_C1_commit_uses_quality_result_witness :
    commitText (fun _ _ => Except.ok " Hi. ") [2] "ctx" "p" =
      Except.ok ([], appendContext "ctx" (trimStr " Hi. "),
        [Event.logCommit (trimStr " Hi. "), Event.update (trimStr " Hi. ") true]) ∧
    legacyCommit (fun _ _ => Except.ok "   ") [2] "p" "fallback text" =
      Except.ok (if trimStr "   " ≠ "" then trimStr "   " else "fallback text") ∧
    processAudioBuffer (fun _ _ => Except.ok "Yes.") (fun _ _ => Except.ok "z") [] "" 2 =
      commitText (fun _ _ => Except.ok "z") [] "" (promptOf "") :=
  ⟨claim_C1_commit_uses_quality_result.1 (fun _ _ => Except.ok " Hi. ") [2] "ctx" "p"
      " Hi. " rfl,
    claim_C1_commit_uses_quality_result.2.1 (fun _ _ => Except.ok "   ") [2] "p"
      "fallback text" "   " rfl,
    claim_C1_commit_uses_quality_result.2.2 (fun _ _ => Except.ok "Yes.")
      (fun _ _ => Except.ok "z") [] "" 2 "Yes." rfl (by decide) (by decide)⟩

/-- Counterexample to C7 as stated: a tick whose fast engine raises
produces only the console error log; no `status_callback` event is
emitted, so the error is not surfaced via `on_status`. -/
theorem claim_C7_counterexample :
    (tick (fun _ _ => Except.error "boom") (fun _ _ => Except.ok "") 1
        { queue := [], buffer := List.replicate 16000 1, lastTranscribeTime := 0,
          lastCommitted := "", pauseRequested := false, paused := false }).2 =
      [Event.errorLog "Transcription error: boom"] ∧
    [Event.errorLog "Transcription error: boom"].any isStatusEvent = false := by
  constructor
  · rw [tick_go_eq _ _ _ _ rfl]
    have hdr : drain { queue := [], buffer := List.replicate 16000 1,
                       lastTranscribeTime := 0, lastCommitted := "",
                       pauseRequested := false, paused := false } =
        { queue := ([] : List (List ℚ)), buffer := List.replicate 16000 1,
          lastTranscribeTime := 0, lastCommitted := "", pauseRequested := false,
          paused := false } := by
      rw [drain]
      simp only [List.flatten_nil, List.append_nil]
    rw [hdr]
    rw [tickCore_error_eq (fun _ _ => Except.error "boom") (fun _ _ => Except.ok "") 1 _
      "boom"
      (by constructor
          · show MIN_DURATION ≤ durationOf (List.replicate 16000 1)
            rw [durationOf, List.length_replicate, MIN_DURATION, SAMPLE_RATE]
            norm_num
          · show UPDATE_INTERVAL < 1 - 0
            rw [UPDATE_INTERVAL]
            norm_num)
      (by show (rmsBelow (List.replicate 16000 1) SILENCE_THRESHOLD && _) = false
          rw [rmsBelow_replicate_one_16000, Bool.false_and])
      rfl]
    decide
  · rfl

/-- C7 (amended): on every tick where `_process_audio_buffer` raises,
the exception is caught: the tick returns normally with the drained
state (the loop continues and nothing propagates), `last_transcribe_time`
and the trailing context are untouched (the tick is skipped), and the
only emission is the console error log — the error is not surfaced via
the `on_status` callback. -/
theorem claim_C7_inference_error_recovery (fast quality : Engine) (now : ℚ)
    (s : TState) (e : String)
    (hp : s.pauseRequested = false)
    (hc : MIN_DURATION ≤ durationOf (drain s).buffer ∧
      UPDATE_INTERVAL < now - s.lastTranscribeTime)
    (hsil : (rmsBelow (drain s).buffer SILENCE_THRESHOLD &&
      decide (durationOf (drain s).buffer < MAX_DURATION)) = false)
    (hpab : processAudioBuffer fast quality (drain s).buffer (drain s).lastCommitted
      (durationOf (drain s).buffer) = Except.error e) :
    tick fast quality now s =
      (drain s, [Event.errorLog ("Transcription error: " ++ e)]) ∧
    (drain s).lastTranscribeTime = s.lastTranscribeTime ∧
    (drain s).lastCommitted = s.lastCommitted ∧
    [Event.errorLog ("Transcription error: " ++ e)].any isStatusEvent = false := by
  rw [tick_go_eq fast quality now s hp]
  exact ⟨tickCore_error_eq fast quality now (drain s) e ⟨hc.1, hc.2⟩ hsil hpab, rfl, rfl, rfl⟩

/-- Witness for the amended C7: the concrete failing tick of the
counterexample, reached through the theorem. -/
theorem claim_C7_inference_error_recovery_witness :
    tick (fun _ _ => Except.error "boom") (fun _ _ => Except.ok "") 1
        { queue := [], buffer := List.replicate 16000 1, lastTranscribeTime := 0,
          lastCommitted := "", pauseRequested := false, paused := false } =
      (drain { queue := [], buffer := List.replicate 16000 1, lastTranscribeTime := 0,
               lastCommitted := "", pauseRequested := false, paused := false },
        [Event.errorLog "Transcription error: boom"]) :=
  (claim_C7_inference_error_recovery (fun _ _ => Except.error "boom")
    (fun _ _ => Except.ok "") 1
    { queue := [], buffer := List.replicate 16000 1, lastTranscribeTime := 0,
      lastCommitted := "", pauseRequested := false, paused := false } "boom" rfl
    (by constructor
        · show MIN_DURATION ≤ durationOf (List.replicate 16000 1 ++ List.flatten [])
          rw [List.flatten_nil, List.append_nil, durationOf, List.length_replicate,
            MIN_DURATION, SAMPLE_RATE]
          norm_num
        · show UPDATE_INTERVAL < 1 - 0
          rw [UPDATE_INTERVAL]
          norm_num)
    (by show (rmsBelow (List.replicate 16000 1 ++ List.flatten []) SILENCE_THRESHOLD &&
          _) = false
        rw [List.flatten_nil, List.append_nil, rmsBelow_replicate_one_16000,
          Bool.false_and])
    (by show processAudioBuffer _ _ (List.replicate 16000 1 ++ List.flatten []) "" _ =
          Except.error "boom"
        rfl)).1
